import Mathlib

/-!
Shallow embedding of the `facts_total` workflow totaler
(`src/facts_total/total_workflow.py` and `src/facts_total/cli.py`).

Datasets are modelled with integer axis labels (`years`, `locations`,
`samples`) and rational data values; the `years` axes of input files are
assumed to be strictly increasing (netCDF convention), so xarray's
`sel(years=slice(a, b))` is embedded as filtering to the inclusive range.
Outer-join fill values (NaN) are modelled as `Option` `none`; the
float32 downcast `astype("float32")` is modelled as exact round-to-nearest-even
at 24 significand bits on rationals in the normal range.
-/

namespace FactsTotal

/-! ### List helpers mirroring the numpy / xarray operations used -/

/-- Minimum of a list of integers, mirroring `ds["years"].min().item()`
(the axis is assumed non-empty in any real input file; `0` is a dummy
value for the empty case). -/
def listMin : List Int → Int
  | [] => 0
  | [a] => a
  | a :: b :: rest => min a (listMin (b :: rest))

/-- Maximum of a list of integers, mirroring `ds["years"].max().item()`. -/
def listMax : List Int → Int
  | [] => 0
  | [a] => a
  | a :: b :: rest => max a (listMax (b :: rest))

/-- Successive differences, mirroring `ds["years"].diff("years")`. -/
def diffs : List Int → List Int
  | a :: b :: rest => (b - a) :: diffs (b :: rest)
  | _ => []

/-- `np.unique`: the sorted list of distinct values (first deduplicate,
then sort by the given boolean order). -/
def npUniqueBy {α : Type} [DecidableEq α] (le : α → α → Bool) (l : List α) : List α :=
  @List.insertionSort α (fun a b => le a b = true)
    (fun a b => instDecidableEqBool (le a b) true) l.dedup

/-- Boolean order on `Int` for `np.unique`. -/
def intLE (a b : Int) : Bool := decide (a ≤ b)

/-- Boolean order on `Option ℚ` used for `np.unique` over float arrays that
may contain NaN (modelled as `none`): numpy sorts NaN last. -/
def optLE : Option ℚ → Option ℚ → Bool
  | some a, some b => decide (a ≤ b)
  | some _, none => true
  | none, some _ => false
  | none, none => true

/-! ### IEEE binary32 rounding, modelled exactly on rationals

`astype("float32")` rounds a value to the nearest representable
single-precision float (round half to even).  For values in the normal
range this is rounding to 24 significand bits, which is what we model;
overflow and subnormals are outside the range exercised here. -/

/-- Fuelled base-2 integer logarithm (structural recursion so the kernel
can evaluate it). -/
def log2Fuel : Nat → Nat → Nat
  | 0, _ => 0
  | fuel + 1, n => if n < 2 then 0 else log2Fuel fuel (n / 2) + 1

/-- `natLog2 n` is the floor of the base-2 logarithm of `n` (for `n ≥ 1`). -/
def natLog2 (n : Nat) : Nat := log2Fuel n n

/-- Smallest `k` such that `q * 2 ^ k ≥ 1` (fuelled; fuel is chosen large
enough at the call site). -/
def expSearch : Nat → ℚ → Nat
  | 0, _ => 0
  | fuel + 1, q => if 1 ≤ q then 0 else expSearch fuel (2 * q) + 1

/-- Floor of the base-2 logarithm of a positive rational. -/
def ilog2 (q : ℚ) : Int :=
  if 1 ≤ q then (natLog2 q.floor.toNat : Int) else -(expSearch q.den q : Int)

/-- `pow2 e` is `2 ^ e` as a rational, for `e : ℤ`. -/
def pow2 (e : Int) : ℚ :=
  if 0 ≤ e then ((2 ^ e.toNat : Nat) : ℚ) else 1 / ((2 ^ (-e).toNat : Nat) : ℚ)

/-- Round a rational to the nearest integer, ties to even. -/
def rne (x : ℚ) : Int :=
  let n := x.floor
  let f := x - (n : ℚ)
  if f < 1 / 2 then n
  else if 1 / 2 < f then n + 1
  else if n % 2 = 0 then n else n + 1

/-- Round a positive rational to 24 significand bits (binary32, normal range). -/
def roundF32Pos (q : ℚ) : ℚ :=
  let e := ilog2 q
  (rne (q * pow2 (23 - e)) : ℚ) * pow2 (e - 23)

/-- Model of the `astype("float32")` downcast on a rational value. -/
def roundF32 (x : ℚ) : ℚ :=
  if x = 0 then 0 else if 0 < x then roundF32Pos x else -(roundF32Pos (-x))

/-! ### Path handling (`pathlib` semantics used to build the provenance tag) -/

/-- Split a character list at `'/'`, mirroring path-component splitting. -/
def splitSlash : List Char → List (List Char)
  | [] => [[]]
  | c :: rest =>
    match splitSlash rest with
    | [] => [[c]]
    | h :: t => if c = '/' then [] :: h :: t else (c :: h) :: t

/-- Index of the last `'.'` of a name that yields a non-empty stem and a
non-empty suffix, mirroring CPython's `PurePath.suffix` rule
(`0 < i < len(name) - 1`). -/
def lastDotIdx (cs : List Char) : Option Nat :=
  ((List.range cs.length).filter fun i =>
    (cs.getD i ' ' == '.') && decide (0 < i) && decide (i + 1 < cs.length)).getLast?

/-- `PurePath.stem` / `with_suffix("")` on a single path component:
the name with its last extension stripped. -/
def pyStemL (name : List Char) : List Char :=
  match lastDotIdx name with
  | some i => name.take i
  | none => name

/-- Second-to-last path component (`Path(p).parent` final component);
empty when the path has fewer than two components (Python's `'.'` parent,
whose stem is the empty string). -/
def parentCompL (comps : List (List Char)) : List Char :=
  if 2 ≤ comps.length then comps.getD (comps.length - 2) [] else []

/-- Last path component (`Path(p).name`). -/
def lastCompL (comps : List (List Char)) : List Char :=
  comps.getLast?.getD []

/-- The provenance tag built in `preprocess_fn`:
`str(Path(Path(file).parent.stem) / Path(Path(file).with_suffix("").name))`. -/
def provenanceTag (s : String) : String :=
  let comps := splitSlash s.toList
  let parent := pyStemL (parentCompL comps)
  let fname := pyStemL (lastCompL comps)
  String.mk (if parent = [] then fname else parent ++ '/' :: fname)

/-- Modelled from the spec wording of claim C9 ("the parent-directory name
joined with the file stem"): the parent component **unstripped**, joined
with the stem of the file name.  Used only to compare the claim against
the source's `provenanceTag`. -/
def claimTagC9 (s : String) : String :=
  let comps := splitSlash s.toList
  String.mk (parentCompL comps ++ '/' :: pyStemL (lastCompL comps))

/-! ### Data model -/

/-- A possibly-NaN attribute value on a variable (`missing_value` is
`np.nan`, `units` is a string). -/
inductive AttrVal : Type
  | str (s : String)
  | nanVal
  deriving DecidableEq, Inhabited

/-- One component projection file: axes `years`, `locations`, `samples`,
the `sea_level_change` data, `lat`/`lon` keyed by location, its dataset
and variable metadata and its source path (`ds.encoding["source"]`).
Data fields are total functions; a value is part of the file's array only
at labels that are on the file's own axes. -/
structure Component : Type where
  path : String
  years : List Int
  locations : List Int
  samples : List Int
  slc : Int → Int → Int → ℚ
  lat : Int → ℚ
  lon : Int → ℚ
  attrs : List (String × String)
  slcAttrs : List (String × AttrVal)
  deriving Inhabited

/-- One file after `preprocess_fn`: the possibly-subset `years` axis, the
provenance tag placed on the length-1 `file` axis, and the observed
uniform year step placed on the length-1 `year_step` axis. -/
structure Tagged : Type where
  comp : Component
  years : List Int
  tag : String
  step : Int
  deriving Inhabited

/-- Non-fatal diagnostics (`click.echo` messages). -/
inductive Diag : Type
  | subsetMismatch (lo hi ps pe : Int)
  | stepMismatch (steps : List Int) (pstep : Int)
  | crossFileStep (steps : List Int)
  deriving DecidableEq, Inhabited

/-- Fatal conditions: the two `AssertionError`s of `preprocess_fn` and
`total_projections`, the `ValueError` of `squeeze(dim="year_step")`, and
the coordinate-inconsistency `AssertionError` of `format_projections`
(naming the coordinate, the location and the distinct downcast values). -/
inductive CoordName : Type
  | lat
  | lon
  deriving DecidableEq, Inhabited

inductive FatalErr : Type
  | nonUniformStep (steps : List Int)
  | noProjections
  | squeezeError (n : Nat)
  | coordInconsistency (c : CoordName) (loc : Int) (vals : List (Option ℚ))
  deriving DecidableEq, Inhabited

/-- The combined dataset produced by `xr.open_mfdataset(..., concat_dim="file",
combine="nested", join="outer", preprocess=preprocess_fn)`: axes are outer
joins (sorted unions) of the per-file axes, data and coordinates are
indexed by file position and filled with `none` (NaN) where a file does
not cover a label. -/
structure CombinedDS : Type where
  fileTags : List String
  fileCount : Nat
  yearStepAxis : List Int
  years : List Int
  locations : List Int
  samples : List Int
  slc : Nat → Int → Int → Int → Option ℚ
  latRaw : Nat → Int → Option ℚ
  lonRaw : Nat → Int → Option ℚ
  dsAttrs : List (String × String)
  slcAttrs : List (String × AttrVal)
  deriving Inhabited

/-- The dataset produced by `format_projections`: `year_step` squeezed out,
`lat`/`lon` downcast to float32 and detached from the `file` dimension
(taken from file 0), and one `cube i` provenance attribute per file. -/
structure FormattedDS : Type where
  fileTags : List String
  fileCount : Nat
  years : List Int
  locations : List Int
  samples : List Int
  slc : Nat → Int → Int → Int → Option ℚ
  lat : Int → Option ℚ
  lon : Int → Option ℚ
  dsAttrs : List (String × String)
  slcAttrs : List (String × AttrVal)
  deriving Inhabited

/-- The dataset produced by `total_projections`: `sea_level_change` summed
over the `file` dimension. -/
structure TotaledDS : Type where
  years : List Int
  locations : List Int
  samples : List Int
  slcTotal : Int → Int → Int → ℚ
  lat : Int → Option ℚ
  lon : Int → Option ℚ
  dsAttrs : List (String × String)
  slcAttrs : List (String × AttrVal)
  deriving Inhabited

/-! ### `preprocess_fn` -/

/-- The subsetting step of `preprocess_fn`: if the `years` axis min/max do
not equal `pyear_start`/`pyear_end`, subset with
`ds.sel(years=slice(pyear_start, pyear_end))` (inclusive label range on an
increasing axis). -/
def subsetYears (c : Component) (ps pe : Int) : List Int :=
  if listMin c.years ≠ ps ∨ listMax c.years ≠ pe then
    c.years.filter fun y => decide (ps ≤ y) && decide (y ≤ pe)
  else c.years

/-- `preprocess_fn` applied to one file.  Mirrors
`total_workflow.py` lines 82-140:
* possibly subset the `years` axis (the warning text for this branch is
  built with `click.wrap_text` in the source but never passed to
  `click.echo` or a logger, so no `Diag.subsetMismatch` is ever emitted);
* warn when the unique year step is not exactly `{pyear_step}`;
* add the `file` dimension labelled with the provenance tag;
* recompute the steps and `assert len(np.unique(step)) == 1`
  (on failure: `AssertionError`, modelled as `FatalErr.nonUniformStep`
  carrying `np.unique(step.data)`), then record the step on the
  length-1 `year_step` dimension. -/
def preprocess (c : Component) (ps pe pstep : Int) : Except FatalErr Tagged × List Diag :=
  let years1 := subsetYears c ps pe
  let stepU := npUniqueBy intLE (diffs years1)
  let diags :=
    if stepU.length ≠ 1 ∨ stepU.getD 0 0 ≠ pstep then [Diag.stepMismatch stepU pstep] else []
  if stepU.length = 1 then
    (.ok { comp := c, years := years1, tag := provenanceTag c.path, step := stepU.getD 0 0 },
      diags)
  else
    (.error (.nonUniformStep stepU), diags)

/-- Apply `preprocess_fn` to each file in path order, stopping at the first
fatal error; diagnostics echoed before the failure are kept. -/
def preprocessAll (comps : List Component) (ps pe pstep : Int) :
    Except FatalErr (List Tagged) × List Diag :=
  match comps with
  | [] => (.ok [], [])
  | c :: rest =>
    let r := preprocess c ps pe pstep
    match r.1 with
    | .error e => (.error e, r.2)
    | .ok t =>
      let rr := preprocessAll rest ps pe pstep
      match rr.1 with
      | .error e => (.error e, r.2 ++ rr.2)
      | .ok ts => (.ok (t :: ts), r.2 ++ rr.2)

/-! ### The nested outer-join combine -/

/-- Sorted union of the values of an axis across files. -/
def unionAxis (ls : List (List Int)) : List Int := npUniqueBy intLE ls.flatten

/-- The value of one file's `sea_level_change` cell in the combined
dataset: present exactly when the label combination lies on that file's
(possibly subset) axes, `none` (NaN fill from `join="outer"`) otherwise. -/
def cellOf (t : Tagged) (y l s : Int) : Option ℚ :=
  if y ∈ t.years ∧ l ∈ t.comp.locations ∧ s ∈ t.comp.samples then some (t.comp.slc y l s)
  else none

/-- Combine the tagged files along the new `file` dimension with
`join="outer"`; `combine_attrs` keeps the first file's attributes. -/
def combine (ts : List Tagged) : CombinedDS where
  fileTags := ts.map (·.tag)
  fileCount := ts.length
  yearStepAxis := npUniqueBy intLE (ts.map (·.step))
  years := unionAxis (ts.map (·.years))
  locations := unionAxis (ts.map fun t => t.comp.locations)
  samples := unionAxis (ts.map fun t => t.comp.samples)
  slc := fun f y l s =>
    match ts.get? f with
    | some t => cellOf t y l s
    | none => none
  latRaw := fun f l =>
    match ts.get? f with
    | some t => if l ∈ t.comp.locations then some (t.comp.lat l) else none
    | none => none
  lonRaw := fun f l =>
    match ts.get? f with
    | some t => if l ∈ t.comp.locations then some (t.comp.lon l) else none
    | none => none
  dsAttrs := (ts.head?.map fun t => t.comp.attrs).getD []
  slcAttrs := (ts.head?.map fun t => t.comp.slcAttrs).getD []

/-! ### `format_projections` -/

/-- The coordinate values named by a `CoordName`. -/
def coordRaw (ds : CombinedDS) : CoordName → Nat → Int → Option ℚ
  | .lat => ds.latRaw
  | .lon => ds.lonRaw

/-- `np.unique(combined_ds[coord].sel(locations=loc).values)` after the
float32 downcast: the sorted distinct downcast values of the coordinate at
one location across the `file` dimension. -/
def coordUnique (ds : CombinedDS) (c : CoordName) (l : Int) : List (Option ℚ) :=
  npUniqueBy optLE (((List.range ds.fileCount).map fun f => (coordRaw ds c f l).map roundF32))

/-- The check body of the inner loop over `coords_ls = ["lat", "lon"]` for
one location: `lat` is checked before `lon`, and the first failing check
produces the coordinate-inconsistency error naming the coordinate, the
location and the distinct values. -/
def checkLoc (ds : CombinedDS) (l : Int) : Option FatalErr :=
  let latU := coordUnique ds .lat l
  if latU.length ≠ 1 then some (.coordInconsistency .lat l latU)
  else
    let lonU := coordUnique ds .lon l
    if lonU.length ≠ 1 then some (.coordInconsistency .lon l lonU) else none

/-- The outer loop of the lat/lon invariance check, over the locations of
the combined dataset in axis order; stops at the first violating location. -/
def coordCheck (ds : CombinedDS) : List Int → Option FatalErr
  | [] => none
  | l :: rest =>
    match checkLoc ds l with
    | some e => some e
    | none => coordCheck ds rest

/-- `"cube 1"`, `"cube 2"`, ... provenance attributes, one per file. -/
def enumCubes : Nat → List String → List (String × String)
  | _, [] => []
  | i, t :: ts => ("cube " ++ toString i, t) :: enumCubes (i + 1) ts

/-- The dataset built by the success path of `format_projections`:
`lat`/`lon` downcast to float32 and taken from file 0
(`isel(file=0)`), re-attached keyed by `locations` only, and the
`cube i` attributes appended to the dataset attributes. -/
def formattedOf (ds : CombinedDS) : FormattedDS where
  fileTags := ds.fileTags
  fileCount := ds.fileCount
  years := ds.years
  locations := ds.locations
  samples := ds.samples
  slc := ds.slc
  lat := fun l => (ds.latRaw 0 l).map roundF32
  lon := fun l => (ds.lonRaw 0 l).map roundF32
  dsAttrs := ds.dsAttrs ++ enumCubes 1 ds.fileTags
  slcAttrs := ds.slcAttrs

/-- `format_projections` (`total_workflow.py` lines 155-207):
* if `len(np.unique(combined_ds["year_step"])) > 1`, echo the cross-file
  step warning naming the values (the `year_step` axis of the outer join
  is already the sorted distinct per-file steps);
* `squeeze(dim="year_step", drop=True)`: raises `ValueError` when the
  axis length is not 1 (modelled as `FatalErr.squeezeError`);
* downcast `lat`/`lon` to float32 and assert they do not vary along the
  `file` dimension, location by location;
* detach `lat`/`lon` from the `file` dimension and add the `cube i`
  provenance attributes. -/
def format_projections (ds : CombinedDS) : Except FatalErr FormattedDS × List Diag :=
  let diags :=
    if 1 < ds.yearStepAxis.length then [Diag.crossFileStep ds.yearStepAxis] else []
  if ds.yearStepAxis.length ≠ 1 then (.error (.squeezeError ds.yearStepAxis.length), diags)
  else
    match coordCheck ds ds.locations with
    | some e => (.error e, diags)
    | none => (.ok (formattedOf ds), diags)

/-! ### `total_projections` -/

/-- `ds.sum(dim="file")` on one cell: xarray's default `skipna=True`
skips NaN (`none`) entries, so missing values contribute nothing and an
all-missing cell sums to `0`. -/
def sumSkipNA (cells : List (Option ℚ)) : ℚ := (cells.filterMap id).sum

/-- Modelled from the spec wording of claim C1 ("missing entries introduced
by outer-join contribute as the defined missing-value marker, not zero"):
the total is the marker (`none`) as soon as any input cell is missing.
Used only to compare the claim against the source's skipna sum. -/
def claimMissingTotal (cells : List (Option ℚ)) : Option ℚ :=
  if cells.all fun c => c.isSome then some ((cells.filterMap id).sum) else none

/-- The cells of the combined/formatted dataset at one coordinate, one per
file. -/
def cellsAt (ds : FormattedDS) (y l s : Int) : List (Option ℚ) :=
  (List.range ds.fileCount).map fun f => ds.slc f y l s

/-- `total_projections` (`total_workflow.py` lines 209-241): copy the
dataset attributes, sum `sea_level_change` over the `file` dimension
(which drops both dataset and variable attributes under the default
`keep_attrs`), set the summed variable's attributes to
`{"units": "mm", "missing_value": np.nan}`, and restore the saved
dataset attributes. -/
def total_projections (ds : FormattedDS) : TotaledDS :=
  let dsAttrsSaved := ds.dsAttrs
  let summed : TotaledDS :=
    { years := ds.years, locations := ds.locations, samples := ds.samples
      slcTotal := fun y l s => sumSkipNA (cellsAt ds y l s)
      lat := ds.lat, lon := ds.lon
      dsAttrs := [], slcAttrs := [] }
  let withVarAttrs :=
    { summed with slcAttrs := [("units", AttrVal.str "mm"), ("missing_value", AttrVal.nanVal)] }
  { withVarAttrs with dsAttrs := dsAttrsSaved }

/-! ### Whole-run drivers -/

/-- Outcome of one run: the terminal status, the echoed diagnostics, and
the dataset written to the output file (`none` when the run aborted before
`write_totaled_projections`). -/
structure RunOutcome : Type where
  result : Except FatalErr Unit
  diags : List Diag
  written : Option TotaledDS
  deriving Inhabited

/-- The intended method sequence of `WorkflowTotaler`
(`get_projections`, `format_projections`, `total_projections`,
`write_totaled_projections`): any fatal error aborts the run before the
output file is written. -/
def runSteps (comps : List Component) (ps pe pstep : Int) : RunOutcome :=
  let pre := preprocessAll comps ps pe pstep
  match pre.1 with
  | .error e => ⟨.error e, pre.2, none⟩
  | .ok ts =>
    let fr := format_projections (combine ts)
    match fr.1 with
    | .error e => ⟨.error e, pre.2 ++ fr.2, none⟩
    | .ok fds => ⟨.ok (), pre.2 ++ fr.2, some (total_projections fds)⟩

/-- The CLI entry point `cli.main`: it calls `get_projections` (which sets
only the `combined_ds` attribute) and then `total_projections` directly,
never `format_projections`; `total_projections` begins with
`assert hasattr(self, "projections_ds")`, which fails (`AssertionError`,
modelled as `FatalErr.noProjections`) because only `format_projections`
sets `projections_ds`.  No summation happens and nothing is written. -/
def runMain (comps : List Component) (ps pe pstep : Int) : RunOutcome :=
  let pre := preprocessAll comps ps pe pstep
  match pre.1 with
  | .error e => ⟨.error e, pre.2, none⟩
  | .ok _ts => ⟨.error .noProjections, pre.2, none⟩

/-! ### Concrete input files used by the counterexamples and witnesses -/

/-- A component file with constant `sea_level_change`, `lat` and `lon`. -/
def mkComp (p : String) (ys ls ss : List Int) (v la lo : ℚ) : Component where
  path := p
  years := ys
  locations := ls
  samples := ss
  slc := fun _ _ _ => v
  lat := fun _ => la
  lon := fun _ => lo
  attrs := []
  slcAttrs := []

/-- Value 5 on samples `[0]`. -/
def cA : Component := mkComp "wf/compA.nc" [2020, 2030, 2040] [0] [0] 5 0 0

/-- Value 7 on samples `[0, 1]`: the outer join leaves `cA` missing at
sample 1. -/
def cB : Component := mkComp "wf/compB.nc" [2020, 2030, 2040] [0] [0, 1] 7 0 0

/-- The combined dataset of `cA` and `cB`. -/
def exC1 : CombinedDS :=
  combine ((preprocessAll [cA, cB] 2020 2040 10).1.toOption.getD [])

/-- A well-formed single file (years exactly `[2020, 2040]` step 10). -/
def cW : Component := mkComp "wf/compW.nc" [2020, 2030, 2040] [0] [0] 1 0 0

/-- Non-uniform year steps `[5, 15]`. -/
def cNU : Component := mkComp "wf/compNU.nc" [2020, 2025, 2040] [0] [0] 1 0 0

/-- `lat = 1` exactly. -/
def cP : Component := mkComp "wf/compP.nc" [2020, 2030, 2040] [0] [0] 1 1 0

/-- `lat = 1 + 2 ^ (-30)`: differs from `cP`'s by less than a float32 ulp,
so both downcast to `1.0f`. -/
def cQ : Component := mkComp "wf/compQ.nc" [2020, 2030, 2040] [0] [0] 1 (1073741825 / 1073741824) 0

/-- `lat = 2`: a genuine (float32-visible) conflict with `cP`. -/
def cR : Component := mkComp "wf/compR.nc" [2020, 2030, 2040] [0] [0] 1 2 0

/-- The combined dataset of `cP` and `cQ` (sub-ulp lat disagreement). -/
def exDS4 : CombinedDS :=
  combine ((preprocessAll [cP, cQ] 2020 2040 10).1.toOption.getD [])

/-- The tagged files of `cP` and `cR`. -/
def tsPR : List Tagged := (preprocessAll [cP, cR] 2020 2040 10).1.toOption.getD []

/-- The combined dataset of `cP` and `cR` (real lat conflict at location 0). -/
def exBad : CombinedDS := combine tsPR

/-- Years `[2010..2050]`, exceeding the requested range `[2020, 2040]`. -/
def cOff : Component := mkComp "wf/compOff.nc" [2010, 2020, 2030, 2040, 2050] [0] [0] 1 0 0

/-- Years `[1900, 1910]`: shares no values with `[2020, 2040]`. -/
def cEmpty : Component := mkComp "wf/compE.nc" [1900, 1910] [0] [0] 1 0 0

/-- Year step 10. -/
def cA10 : Component := mkComp "wf/compA10.nc" [2020, 2030, 2040] [0] [0] 1 0 0

/-- Year step 5: diverges from `cA10`. -/
def cB5 : Component := mkComp "wf/compB5.nc" [2020, 2025, 2030, 2035, 2040] [0] [0] 1 0 0

/-! ### Helper lemmas -/

/-- The skipna sum equals the sum where each missing cell contributes `0`. -/
theorem sumSkipNA_eq_sum_getD (l : List (Option ℚ)) :
    sumSkipNA l = (l.map fun o => o.getD 0).sum := by
  induction l with
  | nil => rfl
  | cons o t ih =>
    cases o with
    | none => simpa [sumSkipNA, List.filterMap_cons] using ih
    | some a =>
      simp only [sumSkipNA, List.filterMap_cons_some, List.map_cons, List.sum_cons, id_eq,
        Option.getD_some] at ih ⊢
      rw [← ih]
      rfl

theorem mem_npUniqueBy {α : Type} [DecidableEq α] (le : α → α → Bool) (l : List α) (a : α) :
    a ∈ npUniqueBy le l ↔ a ∈ l := by
  unfold npUniqueBy
  rw [(List.perm_insertionSort _ l.dedup).mem_iff, List.mem_dedup]

theorem npUniqueBy_length_ne_one {α : Type} [DecidableEq α] (le : α → α → Bool) (l : List α)
    (a b : α) (ha : a ∈ l) (hb : b ∈ l) (hab : a ≠ b) :
    (npUniqueBy le l).length ≠ 1 := by
  intro h
  obtain ⟨c, hc⟩ := List.length_eq_one.mp h
  have ha' : a ∈ npUniqueBy le l := (mem_npUniqueBy le l a).mpr ha
  have hb' : b ∈ npUniqueBy le l := (mem_npUniqueBy le l b).mpr hb
  rw [hc, List.mem_singleton] at ha' hb'
  exact hab (ha'.trans hb'.symm)

theorem dedup_eq_singleton {α : Type} [DecidableEq α] (c : α) :
    ∀ (l : List α), l ≠ [] → (∀ a ∈ l, a = c) → l.dedup = [c]
  | [], h, _ => absurd rfl h
  | [a], _, hall => by
    have : a = c := hall a (List.mem_singleton_self a)
    simp [this]
  | a :: b :: t, _, hall => by
    have hrec : (b :: t).dedup = [c] :=
      dedup_eq_singleton c (b :: t) (by simp) fun x hx => hall x (List.mem_cons_of_mem a hx)
    have hac : a = c := hall a (List.mem_cons_self a (b :: t))
    have hmem : a ∈ b :: t := by
      have : b = c := hall b (List.mem_cons_of_mem a (List.mem_cons_self b t))
      rw [hac, ← this]
      exact List.mem_cons_self b t
    rw [List.dedup_cons_of_mem hmem, hrec]

theorem npUniqueBy_of_allEq {α : Type} [DecidableEq α] (le : α → α → Bool) (l : List α)
    (c : α) (hne : l ≠ []) (hall : ∀ a ∈ l, a = c) : npUniqueBy le l = [c] := by
  unfold npUniqueBy
  rw [dedup_eq_singleton c l hne hall]
  rfl

theorem listMin_mem : ∀ (l : List Int), l ≠ [] → listMin l ∈ l
  | [], h => absurd rfl h
  | [a], _ => by simp [listMin]
  | a :: b :: t, _ => by
    rcases min_cases a (listMin (b :: t)) with ⟨h, _⟩ | ⟨h, _⟩
    · simp [listMin, h]
    · have := listMin_mem (b :: t) (by simp)
      simp only [listMin, h]
      exact List.mem_cons_of_mem a this

theorem getLastQ_mem {α : Type} : ∀ (l : List α) (a : α), l.getLast? = some a → a ∈ l
  | [], a, h => by simp at h
  | [b], a, h => by
    simp only [List.getLast?_singleton, Option.some.injEq] at h
    simp [h]
  | b :: c :: t, a, h => by
    rw [List.getLast?_cons_cons] at h
    exact List.mem_cons_of_mem b (getLastQ_mem (c :: t) a h)

/-! ### Path lemmas -/

theorem splitSlash_ne_nil : ∀ (l : List Char), splitSlash l ≠ []
  | [] => by simp [splitSlash]
  | c :: rest => by
    unfold splitSlash
    match h : splitSlash rest with
    | [] => exact absurd h (splitSlash_ne_nil rest)
    | x :: t => by_cases hc : c = '/' <;> simp [hc]

theorem splitSlash_no_slash : ∀ (l : List Char), '/' ∉ l → splitSlash l = [l]
  | [], _ => rfl
  | c :: rest, h => by
    have hc : c ≠ '/' := fun hcc => h (hcc ▸ List.mem_cons_self c rest)
    have hr : splitSlash rest = [rest] :=
      splitSlash_no_slash rest fun hm => h (List.mem_cons_of_mem c hm)
    unfold splitSlash
    rw [hr]
    simp [hc]

theorem splitSlash_append (f : List Char) :
    ∀ (d : List Char), '/' ∉ d → splitSlash (d ++ '/' :: f) = d :: splitSlash f
  | [], _ => by
    match h : splitSlash f with
    | [] => exact absurd h (splitSlash_ne_nil f)
    | x :: t => simp [splitSlash, h]
  | c :: d, h => by
    have hc : c ≠ '/' := fun hcc => h (hcc ▸ List.mem_cons_self c d)
    have hr : splitSlash (d ++ '/' :: f) = d :: splitSlash f :=
      splitSlash_append f d fun hm => h (List.mem_cons_of_mem c hm)
    simp [splitSlash, hr, hc]

theorem lastDotIdx_bounds (cs : List Char) (i : Nat) (h : lastDotIdx cs = some i) :
    0 < i ∧ i + 1 < cs.length := by
  have hmem := getLastQ_mem _ i h
  have := (List.mem_filter.mp hmem).2
  simp only [Bool.and_eq_true, decide_eq_true_eq] at this
  exact ⟨this.1.2, this.2⟩

theorem pyStemL_ne_nil (n : List Char) (h : n ≠ []) : pyStemL n ≠ [] := by
  unfold pyStemL
  match hd : lastDotIdx n with
  | none => exact h
  | some i =>
    obtain ⟨h0, hlen⟩ := lastDotIdx_bounds n i hd
    intro htake
    have : n.take i = [] ↔ i = 0 ∨ n = [] := List.take_eq_nil_iff
    rcases this.mp htake with h1 | h1
    · omega
    · exact h h1

/-! ### Inversion lemmas on the pipeline steps -/

theorem preprocess_ok_shape (c : Component) (ps pe pstep : Int) (t : Tagged)
    (h : (preprocess c ps pe pstep).1 = .ok t) :
    t.comp = c ∧ t.years = subsetYears c ps pe ∧ t.tag = provenanceTag c.path := by
  by_cases hs : (npUniqueBy intLE (diffs (subsetYears c ps pe))).length = 1
  · simp only [preprocess, hs, if_true, Except.ok.injEq] at h
    rw [← h]
    exact ⟨rfl, rfl, rfl⟩
  · simp only [preprocess, hs, if_false] at h
    cases h

theorem preprocess_error_shape (c : Component) (ps pe pstep : Int) (e : FatalErr)
    (h : (preprocess c ps pe pstep).1 = .error e) :
    e = .nonUniformStep (npUniqueBy intLE (diffs (subsetYears c ps pe))) := by
  by_cases hs : (npUniqueBy intLE (diffs (subsetYears c ps pe))).length = 1
  · simp only [preprocess, hs, if_true] at h
    cases h
  · simp only [preprocess, hs, if_false, Except.error.injEq] at h
    exact h.symm

theorem preprocess_nonuniform (c : Component) (ps pe pstep : Int)
    (h : (npUniqueBy intLE (diffs (subsetYears c ps pe))).length ≠ 1) :
    (preprocess c ps pe pstep).1 =
      .error (.nonUniformStep (npUniqueBy intLE (diffs (subsetYears c ps pe)))) := by
  simp only [preprocess, h, if_false]

theorem preprocessAll_error_of_mem (ps pe pstep : Int) :
    ∀ (comps : List Component) (c : Component), c ∈ comps →
      (∀ t, (preprocess c ps pe pstep).1 ≠ .ok t) →
      ∃ steps, (preprocessAll comps ps pe pstep).1 = .error (.nonUniformStep steps)
  | [], c, hc, _ => absurd hc (List.not_mem_nil c)
  | c0 :: rest, c, hc, hbad => by
    match hp : (preprocess c0 ps pe pstep).1 with
    | .error e =>
      refine ⟨npUniqueBy intLE (diffs (subsetYears c0 ps pe)), ?_⟩
      have hshape := preprocess_error_shape c0 ps pe pstep e hp
      simp only [preprocessAll]
      rw [hp, hshape]
    | .ok t0 =>
      have hcr : c ∈ rest := by
        rcases List.mem_cons.mp hc with h1 | h1
        · exact absurd (h1 ▸ hp) (hbad t0)
        · exact h1
      obtain ⟨steps, hsteps⟩ := preprocessAll_error_of_mem ps pe pstep rest c hcr hbad
      refine ⟨steps, ?_⟩
      simp only [preprocessAll]
      rw [hp, hsteps]

theorem coordCheck_first (ds : CombinedDS) (l : Int) (e : FatalErr) :
    ∀ (pre : List Int), (∀ m ∈ pre, checkLoc ds m = none) → checkLoc ds l = some e →
      ∀ (post : List Int), coordCheck ds (pre ++ l :: post) = some e
  | [], _, hl, post => by simp [coordCheck, hl]
  | m :: pre, hpre, hl, post => by
    have hm : checkLoc ds m = none := hpre m (List.mem_cons_self m pre)
    have hrec := coordCheck_first ds l e pre
      (fun x hx => hpre x (List.mem_cons_of_mem m hx)) hl post
    simp [coordCheck, hm, hrec]

theorem coordCheck_none (ds : CombinedDS) :
    ∀ (locs : List Int), (∀ m ∈ locs, checkLoc ds m = none) → coordCheck ds locs = none
  | [], _ => rfl
  | m :: locs, h => by
    have hm : checkLoc ds m = none := h m (List.mem_cons_self m locs)
    have hrec := coordCheck_none ds locs fun x hx => h x (List.mem_cons_of_mem m hx)
    simp [coordCheck, hm, hrec]

theorem checkLoc_some_shape (ds : CombinedDS) (l : Int) (e : FatalErr)
    (h : checkLoc ds l = some e) :
    ∃ c vals, e = .coordInconsistency c l vals ∧ vals.length ≠ 1 := by
  by_cases hlat : (coordUnique ds .lat l).length = 1
  · by_cases hlon : (coordUnique ds .lon l).length = 1
    · simp only [checkLoc, hlat, hlon, if_true, ne_eq, not_true_eq_false, if_false] at h
      cases h
    · simp only [checkLoc, hlat, hlon, ne_eq, not_true_eq_false, if_false, not_false_eq_true,
        if_true, Option.some.injEq] at h
      exact ⟨.lon, _, h.symm, hlon⟩
  · simp only [checkLoc, hlat, ne_eq, not_false_eq_true, if_true, Option.some.injEq] at h
    exact ⟨.lat, _, h.symm, hlat⟩

theorem format_ok_of (ds : CombinedDS) (hstep : ds.yearStepAxis.length = 1)
    (hcoord : coordCheck ds ds.locations = none) :
    (format_projections ds).1 = .ok (formattedOf ds) := by
  simp only [format_projections, hstep, hcoord, ne_eq, not_true_eq_false, if_false]

theorem format_error_of_checkLoc (ds : CombinedDS) (hstep : ds.yearStepAxis.length = 1)
    (e : FatalErr) (hcoord : coordCheck ds ds.locations = some e) :
    (format_projections ds).1 = .error e := by
  simp only [format_projections, hstep, hcoord, ne_eq, not_true_eq_false, if_false]

theorem format_ok_shape (ds : CombinedDS) (fds : FormattedDS)
    (h : (format_projections ds).1 = .ok fds) : fds = formattedOf ds := by
  by_cases hstep : ds.yearStepAxis.length = 1
  · simp only [format_projections, hstep, ne_eq, not_true_eq_false, if_false] at h
    cases hc : coordCheck ds ds.locations with
    | some e =>
      rw [hc] at h
      cases h
    | none =>
      rw [hc] at h
      simp only [Except.ok.injEq] at h
      exact h.symm
  · simp only [format_projections, hstep, ne_eq, not_false_eq_true, if_true] at h
    cases h

theorem runSteps_pre_error (comps : List Component) (ps pe pstep : Int) (e : FatalErr)
    (h : (preprocessAll comps ps pe pstep).1 = .error e) :
    runSteps comps ps pe pstep = ⟨.error e, (preprocessAll comps ps pe pstep).2, none⟩ := by
  simp only [runSteps]
  rw [h]

theorem runSteps_format_error (comps : List Component) (ps pe pstep : Int)
    (ts : List Tagged) (e : FatalErr)
    (hpre : (preprocessAll comps ps pe pstep).1 = .ok ts)
    (hfmt : (format_projections (combine ts)).1 = .error e) :
    (runSteps comps ps pe pstep).result = .error e ∧
      (runSteps comps ps pe pstep).written = none := by
  simp only [runSteps, hpre, hfmt]
  exact ⟨trivial, trivial⟩

theorem runMain_shape (comps : List Component) (ps pe pstep : Int) (ts : List Tagged)
    (hpre : (preprocessAll comps ps pe pstep).1 = .ok ts) :
    runMain comps ps pe pstep =
      ⟨.error .noProjections, (preprocessAll comps ps pe pstep).2, none⟩ := by
  simp only [runMain]
  rw [hpre]

theorem runMain_pre_error (comps : List Component) (ps pe pstep : Int) (e : FatalErr)
    (h : (preprocessAll comps ps pe pstep).1 = .error e) :
    runMain comps ps pe pstep = ⟨.error e, (preprocessAll comps ps pe pstep).2, none⟩ := by
  simp only [runMain]
  rw [h]

theorem enumCubes_eq_range :
    ∀ (ts : List String) (i : Nat),
      enumCubes i ts =
        (List.range ts.length).map fun k => ("cube " ++ toString (i + k), ts.getD k "")
  | [], _ => rfl
  | t :: ts, i => by
    have ih := enumCubes_eq_range ts (i + 1)
    simp only [enumCubes, ih, List.length_cons, List.range_succ_eq_map, List.map_cons,
      List.map_map, Nat.add_zero, List.getD_cons_zero]
    congr 1
    apply List.map_congr_left
    intro k _
    simp only [Function.comp_apply, List.getD_cons_succ]
    have h1 : i + (k + 1) = i + 1 + k := by omega
    rw [h1]

/-! ### Claim C1 -/

/-- C1, counterexample: in the run over `cA` (present only at sample 0) and
`cB` (present at samples 0 and 1), the totaled value at
`(year 2020, location 0, sample 1)` is the plain number `7` — the sum of
the *present* values — while the claim's reading (missing entries
contribute the missing-value marker) predicts the marker `none`.  The
skipna sum therefore treats outer-join missing entries as zero, not as the
marker. -/
theorem c1_counterexample :
    ((runSteps [cA, cB] 2020 2040 10).written.map fun t => t.slcTotal 2020 0 1) = some 7 ∧
    claimMissingTotal ((List.range exC1.fileCount).map fun f => exC1.slc f 2020 0 1) = none ∧
    (some (7 : ℚ) ≠ (none : Option ℚ)) := by
  refine ⟨?_, ?_, ?_⟩
  · with_unfolding_all rfl
  · with_unfolding_all rfl
  · simp

/-- C1, amended: for every combined dataset accepted by
`format_projections`, the totaled `sea_level_change` value at any
`(year, location, sample)` coordinate equals the arithmetic sum, across
all input files, of that file's value at the same coordinate, where
entries missing due to the outer join contribute `0` (they are skipped by
the skipna sum), never the missing-value marker. -/
theorem c1_total_sum (ds : CombinedDS) (fds : FormattedDS)
    (h : (format_projections ds).1 = .ok fds) (y l s : Int) :
    (total_projections fds).slcTotal y l s
      = ((List.range ds.fileCount).map fun f => (ds.slc f y l s).getD 0).sum := by
  have hf := format_ok_shape ds fds h
  subst hf
  show sumSkipNA (cellsAt (formattedOf ds) y l s) = _
  rw [sumSkipNA_eq_sum_getD]
  simp only [cellsAt, formattedOf, List.map_map]
  rfl

set_option maxRecDepth 8000 in
/-- C1, witness for `c1_total_sum` at the combined dataset of `cA` and
`cB`. -/
theorem c1_total_sum_witness :
    ((format_projections exC1).1 = .ok (formattedOf exC1)) ∧
    (total_projections (formattedOf exC1)).slcTotal 2020 0 1
      = ((List.range exC1.fileCount).map fun f => (exC1.slc f 2020 0 1).getD 0).sum := by
  constructor
  · with_unfolding_all rfl
  · exact c1_total_sum exC1 (formattedOf exC1) (by with_unfolding_all rfl) 2020 0 1

/-! ### Claim C2 -/

/-- C2 (confirmed): on every invocation of the CLI entry point whose
file-reading step succeeds, `total_projections` raises its
`AssertionError` ("No projections dataset found") before any summation:
`main` calls `get_projections` (which sets only `combined_ds`) and then
`total_projections` directly, but `total_projections` requires
`projections_ds`, which only `format_projections` sets and which `main`
never calls.  Nothing is written. -/
theorem c2_main_asserts (comps : List Component) (ps pe pstep : Int)
    (h : (preprocessAll comps ps pe pstep).1.toOption.isSome = true) :
    (runMain comps ps pe pstep).result = .error .noProjections ∧
      (runMain comps ps pe pstep).written = none := by
  match hp : (preprocessAll comps ps pe pstep).1 with
  | .error e =>
    rw [hp] at h
    simp [Except.toOption] at h
  | .ok ts =>
    rw [runMain_shape comps ps pe pstep ts hp]
    exact ⟨rfl, rfl⟩

/-- C2, witness for `c2_main_asserts` on one well-formed file. -/
theorem c2_main_asserts_witness :
    ((preprocessAll [cW] 2020 2040 10).1.toOption.isSome = true) ∧
    ((runMain [cW] 2020 2040 10).result = .error .noProjections ∧
      (runMain [cW] 2020 2040 10).written = none) := by
  refine ⟨by with_unfolding_all rfl, ?_⟩
  exact c2_main_asserts [cW] 2020 2040 10 (by with_unfolding_all rfl)

/-! ### Claim C3 -/

/-- C3 (confirmed): if any input file's `years` axis, after any subsetting
to `[pyear_start, pyear_end]`, has successive differences that are not all
equal, the run aborts with the fatal non-uniform-step assertion raised
during preprocessing, and no output is written (under either the intended
method sequence or the CLI's actual sequence). -/
theorem c3_nonuniform_aborts (comps : List Component) (ps pe pstep : Int)
    (c : Component) (hc : c ∈ comps) (a b : Int)
    (ha : a ∈ diffs (subsetYears c ps pe)) (hb : b ∈ diffs (subsetYears c ps pe))
    (hab : a ≠ b) :
    ∃ steps, (preprocessAll comps ps pe pstep).1 = .error (.nonUniformStep steps) ∧
      (runSteps comps ps pe pstep).result = .error (.nonUniformStep steps) ∧
      (runSteps comps ps pe pstep).written = none ∧
      (runMain comps ps pe pstep).written = none := by
  have hlen := npUniqueBy_length_ne_one intLE _ a b ha hb hab
  have hbad : ∀ t, (preprocess c ps pe pstep).1 ≠ .ok t := by
    intro t ht
    rw [preprocess_nonuniform c ps pe pstep hlen] at ht
    cases ht
  obtain ⟨steps, hsteps⟩ := preprocessAll_error_of_mem ps pe pstep comps c hc hbad
  refine ⟨steps, hsteps, ?_, ?_, ?_⟩
  · rw [runSteps_pre_error comps ps pe pstep _ hsteps]
  · rw [runSteps_pre_error comps ps pe pstep _ hsteps]
  · rw [runMain_pre_error comps ps pe pstep _ hsteps]

/-- C3, witness for `c3_nonuniform_aborts` on the file with years
`[2020, 2025, 2040]` (steps `[5, 15]`). -/
theorem c3_nonuniform_aborts_witness :
    (5 ∈ diffs (subsetYears cNU 2020 2040) ∧ 15 ∈ diffs (subsetYears cNU 2020 2040) ∧
      (5 : Int) ≠ 15) ∧
    (∃ steps, (preprocessAll [cNU] 2020 2040 10).1 = .error (.nonUniformStep steps) ∧
      (runSteps [cNU] 2020 2040 10).result = .error (.nonUniformStep steps) ∧
      (runSteps [cNU] 2020 2040 10).written = none ∧
      (runMain [cNU] 2020 2040 10).written = none) := by
  refine ⟨⟨by decide, by decide, by decide⟩, ?_⟩
  exact c3_nonuniform_aborts [cNU] 2020 2040 10 cNU (List.mem_singleton_self cNU)
    5 15 (by decide) (by decide) (by decide)

/-! ### Claim C4 -/

set_option maxRecDepth 8000 in
/-- C4, counterexample: `cP` and `cQ` disagree on the `lat` value of
location 0 in the combined dataset (`1` versus `1 + 2 ^ (-30)`), yet
`format_projections` succeeds and the run completes and writes output,
because the invariance check only sees the float32 downcasts, which
coincide.  The claim as stated (any disagreement aborts the run before
output) is therefore false. -/
theorem c4_counterexample :
    exDS4.latRaw 0 0 = some 1 ∧
    exDS4.latRaw 1 0 = some (1073741825 / 1073741824) ∧
    (1 : ℚ) ≠ 1073741825 / 1073741824 ∧
    (format_projections exDS4).1 = .ok (formattedOf exDS4) ∧
    ((runSteps [cP, cQ] 2020 2040 10).written.map fun _ => true) = some true := by
  refine ⟨?_, ?_, by norm_num, ?_, ?_⟩
  · with_unfolding_all rfl
  · with_unfolding_all rfl
  · with_unfolding_all rfl
  · with_unfolding_all rfl

/-- C4, amended: if any two input files disagree on the **float32-downcast**
`lat` or `lon` value for the same location, `format_projections` aborts
with the fatal coordinate-inconsistency error at the first violating
location (in axis order, `lat` checked before `lon`), naming the location
and the distinct downcast values; and whenever `format_projections`
aborts, no output is written. -/
theorem c4_first_violation :
    (∀ (ds : CombinedDS) (l : Int) (pre post : List Int) (e : FatalErr),
        ds.yearStepAxis.length = 1 → ds.locations = pre ++ l :: post →
        (∀ m ∈ pre, checkLoc ds m = none) → checkLoc ds l = some e →
        (format_projections ds).1 = .error e ∧
          ∃ c vals, e = .coordInconsistency c l vals ∧ vals.length ≠ 1) ∧
    (∀ (comps : List Component) (ps pe pstep : Int) (ts : List Tagged) (e : FatalErr),
        (preprocessAll comps ps pe pstep).1 = .ok ts →
        (format_projections (combine ts)).1 = .error e →
        (runSteps comps ps pe pstep).written = none) := by
  constructor
  · intro ds l pre post e hstep hlocs hpre hl
    have hcc : coordCheck ds ds.locations = some e := by
      rw [hlocs]
      exact coordCheck_first ds l e pre hpre hl post
    exact ⟨format_error_of_checkLoc ds hstep e hcc, checkLoc_some_shape ds l e hl⟩
  · intro comps ps pe pstep ts e hpre hfmt
    exact (runSteps_format_error comps ps pe pstep ts e hpre hfmt).2

set_option maxRecDepth 8000 in
/-- C4, witness for `c4_first_violation` on the genuinely conflicting pair
`cP` (lat 1) and `cR` (lat 2). -/
theorem c4_first_violation_witness :
    ((format_projections exBad).1
        = .error (.coordInconsistency .lat 0 [some 1, some 2]) ∧
      ∃ c vals, (FatalErr.coordInconsistency CoordName.lat 0 [some 1, some 2])
          = .coordInconsistency c 0 vals ∧ vals.length ≠ 1) ∧
    (runSteps [cP, cR] 2020 2040 10).written = none := by
  constructor
  · exact c4_first_violation.1 exBad 0 [] [] (.coordInconsistency .lat 0 [some 1, some 2])
      (by with_unfolding_all rfl) (by with_unfolding_all rfl)
      (fun m hm => absurd hm (List.not_mem_nil m)) (by with_unfolding_all rfl)
  · exact c4_first_violation.2 [cP, cR] 2020 2040 10 tsPR
      (.coordInconsistency .lat 0 [some 1, some 2])
      (by with_unfolding_all rfl) (by with_unfolding_all rfl)

/-! ### Claim C5 -/

/-- C5 (code bug): for the file with years `[2010..2050]` step 10, which
exceeds the requested range `[2020, 2040]`, preprocessing does subset the
axis to exactly the inclusive range, but **zero** diagnostics are emitted
(the source builds the subset warning text with `click.wrap_text` and
never passes it to `click.echo` or a logger), while the claim and the spec
require the diagnostic to be emitted exactly once per offending file. -/
theorem c5_no_diagnostic :
    ((preprocess cOff 2020 2040 10).1.toOption.map fun t => t.years)
        = some [2020, 2030, 2040] ∧
    (preprocess cOff 2020 2040 10).2 = [] := by
  exact ⟨by with_unfolding_all rfl, by with_unfolding_all rfl⟩

/-! ### Claim C6 -/

/-- C6, counterexample: the file with years `[1900, 1910]` (disjoint from
`[2020, 2040]`) is subset to the empty axis without the subsetting itself
failing, but the empty axis then fails the per-file uniform-step assertion
**inside** `preprocess_fn` (the empty step array has zero unique values),
so the run aborts within the per-file validation step rather than letting
the empty axis propagate out and surface downstream, contrary to the
claim. -/
theorem c6_counterexample :
    subsetYears cEmpty 2020 2040 = [] ∧
    (preprocess cEmpty 2020 2040 10).1 = .error (.nonUniformStep []) ∧
    (runSteps [cEmpty] 2020 2040 10).result = .error (.nonUniformStep []) ∧
    (runSteps [cEmpty] 2020 2040 10).written = none := by
  refine ⟨?_, ?_, ?_, ?_⟩ <;> with_unfolding_all rfl

/-- C6, amended: for a file whose `years` axis shares no values with
`[pyear_start, pyear_end]`, the subsetting step itself does not fail — it
produces the empty axis — but the empty axis then fails the per-file
uniform-step assertion within `preprocess_fn` itself (with an empty list
of observed steps), so the error surfaces inside the per-file validation
step, not downstream of it. -/
theorem c6_empty_subset (c : Component) (ps pe pstep : Int)
    (hlt : ps < pe) (hne : c.years ≠ [])
    (hout : ∀ y ∈ c.years, y < ps ∨ pe < y) :
    subsetYears c ps pe = [] ∧
    (preprocess c ps pe pstep).1 = .error (.nonUniformStep []) := by
  have hmin : listMin c.years ≠ ps := by
    rcases hout (listMin c.years) (listMin_mem c.years hne) with h | h <;> omega
  have hsub : subsetYears c ps pe = [] := by
    unfold subsetYears
    rw [if_pos (Or.inl hmin), List.filter_eq_nil_iff]
    intro y hy
    simp only [Bool.and_eq_true, decide_eq_true_eq, not_and]
    rcases hout y hy with h | h <;> omega
  have hlen : (npUniqueBy intLE (diffs (subsetYears c ps pe))).length ≠ 1 := by
    rw [hsub]
    decide
  refine ⟨hsub, ?_⟩
  rw [preprocess_nonuniform c ps pe pstep hlen, hsub]
  rfl

/-- C6, witness for `c6_empty_subset` on the file with years
`[1900, 1910]`. -/
theorem c6_empty_subset_witness :
    ((2020 : Int) < 2040 ∧ cEmpty.years ≠ [] ∧
      ∀ y ∈ cEmpty.years, y < 2020 ∨ 2040 < y) ∧
    (subsetYears cEmpty 2020 2040 = [] ∧
      (preprocess cEmpty 2020 2040 10).1 = .error (.nonUniformStep [])) := by
  refine ⟨⟨by decide, by decide, by decide⟩, ?_⟩
  exact c6_empty_subset cEmpty 2020 2040 10 (by decide) (by decide) (by decide)

/-! ### Claim C7 -/

set_option maxRecDepth 8000 in
/-- C7 (code bug): with `cA10` (step 10) and `cB5` (step 5), the cross-file
step divergence diagnostic is emitted naming the offending values
`[5, 10]`, but processing does **not** continue: the outer-joined
`year_step` axis has length 2, so the very next line,
`squeeze(dim="year_step")`, raises `ValueError` and the run aborts with
nothing written — contradicting the claim that divergence never aborts the
run. -/
theorem c7_divergence_aborts :
    (runSteps [cA10, cB5] 2020 2040 10).diags
        = [Diag.stepMismatch [5] 10, Diag.crossFileStep [5, 10]] ∧
    (runSteps [cA10, cB5] 2020 2040 10).result = .error (.squeezeError 2) ∧
    (runSteps [cA10, cB5] 2020 2040 10).written = none := by
  refine ⟨?_, ?_, ?_⟩ <;> with_unfolding_all rfl

/-! ### Claim C8 -/

/-- C8 (confirmed): after `total_projections`, the attributes of the target
variable `sea_level_change` are exactly
`{"units": "mm", "missing_value": NaN}` — freshly set, not inherited from
any input file — and the top-level dataset attributes (including the
`cube i` provenance listing) are identical to those of the dataset before
the sum over the `file` dimension. -/
theorem c8_attrs (ds : FormattedDS) :
    (total_projections ds).slcAttrs
        = [("units", AttrVal.str "mm"), ("missing_value", AttrVal.nanVal)] ∧
      (total_projections ds).dsAttrs = ds.dsAttrs :=
  ⟨rfl, rfl⟩

/-! ### Claim C9 -/

/-- C9, counterexample: for the source path `"out.v2/mod.nc"`, the label
placed on the `file` axis is `"out/mod"` — the parent directory's *stem*
(`Path(file).parent.stem` also strips the directory's extension) — not the
parent-directory *name* joined with the file stem (`"out.v2/mod"`) that
the claim describes. -/
theorem c9_counterexample :
    provenanceTag "out.v2/mod.nc" = "out/mod" ∧
    claimTagC9 "out.v2/mod.nc" = "out.v2/mod" ∧
    provenanceTag "out.v2/mod.nc" ≠ claimTagC9 "out.v2/mod.nc" := by
  refine ⟨rfl, rfl, ?_⟩
  decide

/-- C9, amended: for every input file, preprocessing introduces a length-1
`file` axis whose single label is the parent-directory **stem** (its own
extension stripped, per `Path(file).parent.stem`) joined with the file
stem, and `format_projections` attaches one dataset attribute per input
file, keyed sequentially `cube 1`, `cube 2`, ..., valued by that file's
provenance tag. -/
theorem c9_provenance :
    (∀ d f : List Char, d ≠ [] → '/' ∉ d → '/' ∉ f →
        provenanceTag (String.mk (d ++ '/' :: f))
          = String.mk (pyStemL d ++ '/' :: pyStemL f)) ∧
    (∀ (c : Component) (ps pe pstep : Int) (t : Tagged),
        (preprocess c ps pe pstep).1 = .ok t → t.tag = provenanceTag c.path) ∧
    (∀ (ds : CombinedDS) (fds : FormattedDS), (format_projections ds).1 = .ok fds →
        fds.dsAttrs = ds.dsAttrs ++ (List.range ds.fileTags.length).map
          fun i => ("cube " ++ toString (i + 1), ds.fileTags.getD i "")) := by
  refine ⟨?_, ?_, ?_⟩
  · intro d f hd hds hfs
    have hsplit : splitSlash (String.mk (d ++ '/' :: f)).toList = [d, f] := by
      show splitSlash (d ++ '/' :: f) = [d, f]
      rw [splitSlash_append f d hds, splitSlash_no_slash f hfs]
    simp only [provenanceTag, hsplit]
    have hparent : parentCompL [d, f] = d := by
      simp [parentCompL]
    have hlast : lastCompL [d, f] = f := rfl
    rw [hparent, hlast, if_neg (pyStemL_ne_nil d hd)]
  · intro c ps pe pstep t ht
    exact (preprocess_ok_shape c ps pe pstep t ht).2.2
  · intro ds fds h
    rw [format_ok_shape ds fds h]
    show ds.dsAttrs ++ enumCubes 1 ds.fileTags = _
    rw [enumCubes_eq_range ds.fileTags 1]
    congr 1
    apply List.map_congr_left
    intro k _
    rw [Nat.add_comm 1 k]

/-- The tagged form of `cW`, used to witness `c9_provenance`. -/
def tW : Tagged := (preprocess cW 2020 2040 10).1.toOption.getD default

set_option maxRecDepth 8000 in
/-- C9, witness for `c9_provenance` on the path `"out.v2/mod.nc"`, the
component `cW` and the combined dataset of `cA` and `cB`. -/
theorem c9_provenance_witness :
    provenanceTag (String.mk ("out.v2".toList ++ '/' :: "mod.nc".toList))
        = String.mk (pyStemL "out.v2".toList ++ '/' :: pyStemL "mod.nc".toList) ∧
    tW.tag = provenanceTag cW.path ∧
    (formattedOf exC1).dsAttrs = exC1.dsAttrs ++ (List.range exC1.fileTags.length).map
      fun i => ("cube " ++ toString (i + 1), exC1.fileTags.getD i "") := by
  refine ⟨?_, ?_, ?_⟩
  · exact c9_provenance.1 "out.v2".toList "mod.nc".toList (by decide) (by decide) (by decide)
  · exact c9_provenance.2.1 cW 2020 2040 10 tW (by with_unfolding_all rfl)
  · exact c9_provenance.2.2 exC1 (formattedOf exC1) (by with_unfolding_all rfl)

/-! ### Claim C10 -/

/-- C10 (confirmed): the cross-file `lat`/`lon` invariance check in
`format_projections` sees only the float32 downcasts of the coordinates:
whenever the downcast values agree across all files at every location
(even if the raw values differ by less than float32 precision), the check
passes and formatting proceeds without error. -/
theorem c10_downcast_check (ds : CombinedDS)
    (hstep : ds.yearStepAxis.length = 1) (hn : 0 < ds.fileCount)
    (hlat : ∀ l ∈ ds.locations, ∀ f ∈ List.range ds.fileCount, ∀ g ∈ List.range ds.fileCount,
        (ds.latRaw f l).map roundF32 = (ds.latRaw g l).map roundF32)
    (hlon : ∀ l ∈ ds.locations, ∀ f ∈ List.range ds.fileCount, ∀ g ∈ List.range ds.fileCount,
        (ds.lonRaw f l).map roundF32 = (ds.lonRaw g l).map roundF32) :
    (format_projections ds).1 = .ok (formattedOf ds) := by
  apply format_ok_of ds hstep
  apply coordCheck_none
  intro m hm
  have h0 : 0 ∈ List.range ds.fileCount := List.mem_range.mpr hn
  have hnil : (List.range ds.fileCount).map
      (fun f => (coordRaw ds .lat f m).map roundF32) ≠ [] := by
    simp only [ne_eq, List.map_eq_nil_iff, List.range_eq_nil]
    omega
  have hlat1 : (coordUnique ds .lat m).length = 1 := by
    unfold coordUnique
    rw [npUniqueBy_of_allEq optLE _ ((ds.latRaw 0 m).map roundF32) hnil ?_]
    · rfl
    · intro x hx
      obtain ⟨f, hf, hfx⟩ := List.mem_map.mp hx
      rw [← hfx]
      exact hlat m hm f hf 0 h0
  have hnil2 : (List.range ds.fileCount).map
      (fun f => (coordRaw ds .lon f m).map roundF32) ≠ [] := by
    simp only [ne_eq, List.map_eq_nil_iff, List.range_eq_nil]
    omega
  have hlon1 : (coordUnique ds .lon m).length = 1 := by
    unfold coordUnique
    rw [npUniqueBy_of_allEq optLE _ ((ds.lonRaw 0 m).map roundF32) hnil2 ?_]
    · rfl
    · intro x hx
      obtain ⟨f, hf, hfx⟩ := List.mem_map.mp hx
      rw [← hfx]
      exact hlon m hm f hf 0 h0
  simp only [checkLoc, hlat1, hlon1, ne_eq, not_true_eq_false, if_false]

set_option maxRecDepth 8000 in
/-- C10, witness for `c10_downcast_check` on the combined dataset of `cP`
and `cQ`, whose raw `lat` values differ by `2 ^ (-30)` but share the same
float32 downcast. -/
theorem c10_downcast_check_witness :
    ((exDS4.latRaw 0 0).map roundF32 = (exDS4.latRaw 1 0).map roundF32) ∧
    (format_projections exDS4).1 = .ok (formattedOf exDS4) := by
  have e00 : (exDS4.latRaw 0 0).map roundF32 = some 1 := by with_unfolding_all rfl
  have e10 : (exDS4.latRaw 1 0).map roundF32 = some 1 := by with_unfolding_all rfl
  have o00 : (exDS4.lonRaw 0 0).map roundF32 = some 0 := by with_unfolding_all rfl
  have o10 : (exDS4.lonRaw 1 0).map roundF32 = some 0 := by with_unfolding_all rfl
  constructor
  · rw [e00, e10]
  · apply c10_downcast_check exDS4
    · with_unfolding_all rfl
    · have h2 : exDS4.fileCount = 2 := by with_unfolding_all rfl
      rw [h2]
      decide
    · intro l hl f hf g hg
      have hloc : exDS4.locations = [0] := by with_unfolding_all rfl
      have hrange : List.range exDS4.fileCount = [0, 1] := by with_unfolding_all rfl
      rw [hloc] at hl
      rw [hrange] at hf hg
      simp only [List.mem_singleton] at hl
      subst hl
      fin_cases hf <;> fin_cases hg <;> simp [e00, e10]
    · intro l hl f hf g hg
      have hloc : exDS4.locations = [0] := by with_unfolding_all rfl
      have hrange : List.range exDS4.fileCount = [0, 1] := by with_unfolding_all rfl
      rw [hloc] at hl
      rw [hrange] at hf hg
      simp only [List.mem_singleton] at hl
      subst hl
      fin_cases hf <;> fin_cases hg <;> simp [o00, o10]

end FactsTotal
